import Mathlib

/-!
Verification of the postfix-policy-server repository (`pps.go`): a shallow
embedding of the policy-protocol data model, the attribute decoder
(`polSetFuncs`), the record assembler (`processMsg`), the per-connection
session loop (`connHandler`), and the accept loop (`RunWithListener`),
together with theorems settling the specification claims.
-/

namespace PPS

/-- Go `net.IP`: a byte slice.  `none` models the Go `nil` IP (parse failure);
`some bs` models a non-nil byte slice. -/
abbrev IP := List Nat

/-- `PostfixResp` from pps.go: `type PostfixResp string`. -/
abbrev PostfixResp := String

/-- `RespOk PostfixResp = "OK"` -/
def RespOk : PostfixResp := "OK"

/-- `RespReject PostfixResp = "REJECT"` -/
def RespReject : PostfixResp := "REJECT"

/-- `RespDefer PostfixResp = "DEFER"` -/
def RespDefer : PostfixResp := "DEFER"

/-- `RespDeferIfReject PostfixResp = "DEFER_IF_REJECT"` -/
def RespDeferIfReject : PostfixResp := "DEFER_IF_REJECT"

/-- `RespDeferIfPermit PostfixResp = "DEFER_IF_PERMIT"` -/
def RespDeferIfPermit : PostfixResp := "DEFER_IF_PERMIT"

/-- `RespDiscard PostfixResp = "DISCARD"` -/
def RespDiscard : PostfixResp := "DISCARD"

/-- `RespDunno PostfixResp = "DUNNO"` -/
def RespDunno : PostfixResp := "DUNNO"

/-- `RespHold PostfixResp = "HOLD"` -/
def RespHold : PostfixResp := "HOLD"

/-- `RespInfo PostfixResp = "INFO"` -/
def RespInfo : PostfixResp := "INFO"

/-- `RespWarn PostfixResp = "WARN"` -/
def RespWarn : PostfixResp := "WARN"

/-- The ten bare named response constants of pps.go (lines 40-51), in order. -/
def tenResponses : List PostfixResp :=
  [RespOk, RespReject, RespDefer, RespDeferIfReject, RespDeferIfPermit,
   RespDiscard, RespDunno, RespHold, RespInfo, RespWarn]

/-- `PolicySet` from pps.go: the typed record assembled from one request block.
Go `uint64` fields are modelled as `Nat` (the parser rejects values ≥ 2^64, so
no overflow arithmetic ever occurs); `net.IP` fields as `Option IP` with
`none` = Go `nil`.  Zero values of the Go struct are the field defaults. -/
structure PolicySet where
  Request           : String := ""
  ProtocolState     : String := ""
  ProtocolName      : String := ""
  HELOName          : String := ""
  QueueId           : String := ""
  Sender            : String := ""
  Recipient         : String := ""
  RecipientCount    : Nat := 0
  ClientAddress     : Option IP := none
  ClientName        : String := ""
  ReverseClientName : String := ""
  Instance          : String := ""
  SASLMethod        : String := ""
  SASLUsername      : String := ""
  SASLSender        : String := ""
  Size              : Nat := 0
  CCertSubject      : String := ""
  CCertIssuer       : String := ""
  CCertFingerprint  : String := ""
  EncryptionProtocol : String := ""
  EncryptionCipher   : String := ""
  EncryptionKeysize  : Nat := 0
  ETRNDomain         : String := ""
  Stress             : Bool := false
  CCertPubkeyFingerprint : String := ""
  ClientPort         : Nat := 0
  PolicyContext      : String := ""
  ServerAddress      : Option IP := none
  ServerPort         : Nat := 0
  PPSConnId          : String := ""
deriving DecidableEq, Repr

/-- Models Go `strconv.ParseUint(v, 10, 64)`: succeeds exactly on a non-empty
all-decimal-digit string whose value fits in 64 bits; `none` covers both
syntax errors and range errors (in either case `err != nil` in Go, and the
callers in pps.go then skip the assignment). -/
def parseUint10 (s : String) : Option Nat :=
  if s.data ≠ [] ∧ s.data.all Char.isDigit then
    let n := s.data.foldl (fun a c => a * 10 + (c.toNat - 48)) 0
    if n < 2 ^ 64 then some n else none
  else none

/-- Split a character list at every occurrence of `sep` (model of the field
splitting done by Go's IP parsers). -/
def splitOnChar (sep : Char) : List Char → List (List Char)
  | [] => [[]]
  | c :: cs =>
    if c = sep then [] :: splitOnChar sep cs
    else
      match splitOnChar sep cs with
      | [] => [[c]]
      | f :: rest => (c :: f) :: rest

/-- Numeric value of a decimal-digit character list. -/
def decVal (cs : List Char) : Nat :=
  cs.foldl (fun a c => a * 10 + (c.toNat - 48)) 0

/-- One dotted-quad field of an IPv4 literal, per Go's `net`/`netip` parser:
1-3 decimal digits, value ≤ 255, no leading zero. -/
def parseV4Field (cs : List Char) : Option Nat :=
  if cs ≠ [] ∧ cs.all Char.isDigit then
    if cs.length > 1 ∧ cs.head? = some '0' then none
    else if decVal cs ≤ 255 then some (decVal cs) else none
  else none

/-- Models the IPv4 path of Go `net.ParseIP`: exactly four valid dotted-quad
fields; result is the four bytes. -/
def parseIPv4 (cs : List Char) : Option (List Nat) :=
  match (splitOnChar '.' cs).mapM parseV4Field with
  | some [a, b, c, d] => some [a, b, c, d]
  | _ => none

/-- Hex digit value, if any. -/
def hexVal (c : Char) : Option Nat :=
  if '0' ≤ c ∧ c ≤ '9' then some (c.toNat - 48)
  else if 'a' ≤ c ∧ c ≤ 'f' then some (c.toNat - 87)
  else if 'A' ≤ c ∧ c ≤ 'F' then some (c.toNat - 55)
  else none

/-- Whether a character is a hexadecimal digit. -/
def isHexDigit (c : Char) : Bool := (hexVal c).isSome

/-- Value of a hex-digit character list. -/
def hexGroupVal (cs : List Char) : Nat :=
  cs.foldl (fun a c => a * 16 + (hexVal c).getD 0) 0

/-- The two big-endian bytes of a 16-bit group value. -/
def bytes2 (n : Nat) : List Nat := [n / 256, n % 256]

/-- Expansion of a parsed IPv6 body to 16 bytes, per Go: without `::` the
bytes must number exactly 16; with `::` at byte position `p` there must be
fewer than 16 bytes (`::` expands to at least one zero group). -/
def finishV6 (acc : List Nat) (ell : Option Nat) : Option IP :=
  match ell with
  | none => if acc.length = 16 then some acc else none
  | some p =>
    if acc.length < 16 then
      some (acc.take p ++ List.replicate (16 - acc.length) 0 ++ acc.drop p)
    else none

/-- Group-by-group parser for the IPv6 path of Go `net.ParseIP`:
`cs` is the remaining input, `ell` the byte position of a `::` already seen,
`acc` the bytes produced so far.  Each group is 1-4 hex digits; a trailing
dotted-quad IPv4 replaces the final two groups (allowed only after `::` or at
byte offset 12); at most one `::`; `fuel` bounds the group count. -/
def parseGroups : Nat → List Char → Option Nat → List Nat → Option IP
  | 0, _, _, _ => none
  | fuel + 1, cs, ell, acc =>
    if acc.length ≥ 16 then none
    else
      let hx := cs.takeWhile isHexDigit
      let rest := cs.dropWhile isHexDigit
      if hx = [] ∨ hx.length > 4 then none
      else
        match rest with
        | [] => finishV6 (acc ++ bytes2 (hexGroupVal hx)) ell
        | '.' :: _ =>
          if ell.isNone ∧ acc.length ≠ 12 then none
          else if acc.length + 4 > 16 then none
          else
            match parseIPv4 cs with
            | some b4 => finishV6 (acc ++ b4) ell
            | none => none
        | ':' :: ':' :: rest2 =>
          if ell.isSome then none
          else
            let acc2 := acc ++ bytes2 (hexGroupVal hx)
            match rest2 with
            | [] => finishV6 acc2 (some acc2.length)
            | _ => parseGroups fuel rest2 (some acc2.length) acc2
        | ':' :: rest2 =>
          match rest2 with
          | [] => none
          | _ => parseGroups fuel rest2 ell (acc ++ bytes2 (hexGroupVal hx))
        | _ => none

/-- Models the IPv6 path of Go `net.ParseIP` (zones are rejected, as
`net.ParseIP` does). -/
def parseIPv6 (cs : List Char) : Option IP :=
  match cs with
  | ':' :: ':' :: rest =>
    if rest = [] then some (List.replicate 16 0)
    else parseGroups 9 rest (some 0) []
  | _ => parseGroups 9 cs none []

/-- The 16-byte IPv4-in-IPv6 form Go's `net.ParseIP` returns for a
dotted-quad literal. -/
def v4InV6 (b4 : List Nat) : IP :=
  [0, 0, 0, 0, 0, 0, 0, 0, 0, 0, 255, 255] ++ b4

/-- Models Go `net.ParseIP`: scan for the first `.` or `:`; a `.` selects the
IPv4 path, a `:` the IPv6 path, and a string containing neither yields the
`nil` IP. -/
def ParseIP (s : String) : Option IP :=
  match s.data.find? (fun c => c == '.' || c == ':') with
  | some '.' => (parseIPv4 s.data).map v4InV6
  | some ':' => parseIPv6 s.data
  | _ => none

/-- First-occurrence split of a character list at `'='`:
`some (before, after)` when the list contains `'='`, else `none`. -/
def splitFirst : List Char → Option (List Char × List Char)
  | [] => none
  | c :: cs =>
    if c = '=' then some ([], cs)
    else (splitFirst cs).map (fun p => (c :: p.1, p.2))

/-- Models Go `strings.SplitN(l, "=", 2)`.  Go returns the one-element slice
`[l]` when `l` contains no `=` (modelled as `(l, none)`), and the two-element
slice `[key, value]` split at the first `=` otherwise
(modelled as `(key, some value)`). -/
def splitN2 (l : String) : String × Option String :=
  match splitFirst l.data with
  | none => (l, none)
  | some (k, v) => (⟨k⟩, some ⟨v⟩)

/-- `polSetFuncs` from pps.go: the map from attribute key to the assignment
applied to the `PolicySet`; `none` for keys absent from the map. -/
def polSetFuncs (k : String) : Option (PolicySet → String → PolicySet) :=
  match k with
  | "request" => some (fun ps v => { ps with Request := v })
  | "protocol_state" => some (fun ps v => { ps with ProtocolState := v })
  | "protocol_name" => some (fun ps v => { ps with ProtocolName := v })
  | "helo_name" => some (fun ps v => { ps with HELOName := v })
  | "queue_id" => some (fun ps v => { ps with QueueId := v })
  | "sender" => some (fun ps v => { ps with Sender := v })
  | "recipient" => some (fun ps v => { ps with Recipient := v })
  | "recipient_count" => some (fun ps v =>
      match parseUint10 v with
      | some rc => { ps with RecipientCount := rc }
      | none => ps)
  | "client_address" => some (fun ps v => { ps with ClientAddress := ParseIP v })
  | "client_name" => some (fun ps v => { ps with ClientName := v })
  | "reverse_client_name" => some (fun ps v => { ps with ReverseClientName := v })
  | "instance" => some (fun ps v => { ps with Instance := v })
  | "sasl_method" => some (fun ps v => { ps with SASLMethod := v })
  | "sasl_username" => some (fun ps v => { ps with SASLUsername := v })
  | "sasl_sender" => some (fun ps v => { ps with SASLSender := v })
  | "size" => some (fun ps v =>
      match parseUint10 v with
      | some s => { ps with Size := s }
      | none => ps)
  | "ccert_subject" => some (fun ps v => { ps with CCertSubject := v })
  | "ccert_issuer" => some (fun ps v => { ps with CCertIssuer := v })
  | "ccert_fingerprint" => some (fun ps v => { ps with CCertFingerprint := v })
  | "encryption_protocol" => some (fun ps v => { ps with EncryptionProtocol := v })
  | "encryption_cipher" => some (fun ps v => { ps with EncryptionCipher := v })
  | "encryption_keysize" => some (fun ps v =>
      match parseUint10 v with
      | some ks => { ps with EncryptionKeysize := ks }
      | none => ps)
  | "etrn_domain" => some (fun ps v => { ps with ETRNDomain := v })
  | "stress" => some (fun ps v => { ps with Stress := v == "yes" })
  | "ccert_pubkey_fingerprint" => some (fun ps v => { ps with CCertPubkeyFingerprint := v })
  | "client_port" => some (fun ps v =>
      match parseUint10 v with
      | some cp => { ps with ClientPort := cp }
      | none => ps)
  | "policy_context" => some (fun ps v => { ps with PolicyContext := v })
  | "server_address" => some (fun ps v => { ps with ServerAddress := ParseIP v })
  | "server_port" => some (fun ps v =>
      match parseUint10 v with
      | some sp => { ps with ServerPort := sp }
      | none => ps)
  | _ => none

/-- One non-blank line of the scan loop in `processMsg` (pps.go lines
335-338): `sl := strings.SplitN(l, "=", 2)`, then the key lookup and, when a
setter is found, the call `f(ps, sl[1])`.  When the line contains no `=` but
its whole text is a recognized key, Go evaluates `sl[1]` on a one-element
slice — an index-out-of-range panic, modelled as `none`. -/
def processLine (ps : PolicySet) (l : String) : Option PolicySet :=
  match splitN2 l with
  | (k, v?) =>
    match polSetFuncs k with
    | none => some ps
    | some f =>
      match v? with
      | some v => some (f ps v)
      | none => none

/-- The scan loop of `processMsg`: consume lines until a blank line or the
end of the available input.  Returns the remaining lines, the updated record,
and whether the scanner was exhausted (`Scan` returned `false`) rather than
stopped at a blank line; `none` models a panic in the loop body. -/
def processMsgAux : List String → PolicySet → Option (List String × PolicySet × Bool)
  | [], ps => some ([], ps, true)
  | l :: rest, ps =>
    if l = "" then some (rest, ps, false)
    else
      match processLine ps l with
      | none => none
      | some ps2 => processMsgAux rest ps2

/-- How the connection's line source ends once all lines are consumed:
clean end-of-stream (`Scan` false, `Err() == nil`), a `*net.OpError`
(ignored by `processMsg`), or any other scanner error with its message. -/
inductive StreamEnd where
  | eof
  | opError
  | fatalError (msg : String)
deriving DecidableEq, Repr

/-- The state of one `connection` (pps.go lines 180-186) together with its
modelled transport and the observable event log.
`lines`/`ending` model the data the peer's stream still holds and how it
ends; `err` and `cc` are the struct fields `connection.err` and
`connection.cc`; `closed` records whether anything ever called `Close()` on
the accepted socket (pps.go never does, for any session); `handled` logs the
records passed to `Handler.Handle`; `writes` logs the byte strings
successfully written on the socket; `wdFail`/`wFail` model a transport on
which `SetWriteDeadline`/`Write` fail. -/
structure Conn where
  lines   : List String
  ending  : StreamEnd := .eof
  err     : Option String := none
  cc      : Bool := false
  closed  : Bool := false
  handled : List PolicySet := []
  writes  : List String := []
  wdFail  : Bool := false
  wFail   : Bool := false
deriving DecidableEq, Repr

/-- `processMsg` from pps.go (lines 329-346): run the scan loop on the
connection, then consult `rs.Err()`: a `*net.OpError` is ignored, any other
error is stored in `c.err`.  A clean stop at a blank line leaves `c.err`
untouched.  `none` models the panic from `processLine`. -/
def processMsg (c : Conn) (ps : PolicySet) : Option (Conn × PolicySet) :=
  match processMsgAux c.lines ps with
  | none => none
  | some (rest, ps2, exhausted) =>
    if exhausted then
      match c.ending with
      | .eof => some ({ c with lines := rest }, ps2)
      | .opError => some ({ c with lines := rest }, ps2)
      | .fatalError m => some ({ c with lines := rest, err := some m }, ps2)
    else some ({ c with lines := rest }, ps2)

/-- The response string built in `connHandler`:
`fmt.Sprintf("action=%s\n\n", resp)`. -/
def sResp (resp : PostfixResp) : String := "action=" ++ resp ++ "\n\n"

/-- Error message stored when `SetWriteDeadline` fails (underlying error text
elided). -/
def wdErrMsg : String := "failed to set write deadline on connection"

/-- Error message stored when the response `Write` fails (underlying error
text elided). -/
def wErrMsg : String := "failed to write response on connection"

/-- One iteration of the `for !c.cc` loop body of `connHandler` (pps.go lines
311-324): build a fresh `PolicySet` carrying the connection id, run
`processMsg`, and when the assembled record has a non-empty `Request`, call
the handler, set the write deadline (on failure only `c.err` is set), and
write `action=<resp>\n\n` (on failure only `c.err` is set).  `none`
propagates a panic. -/
def connHandlerStep (h : PolicySet → PostfixResp) (connId : String) (c : Conn) :
    Option Conn :=
  match processMsg c { PPSConnId := connId } with
  | none => none
  | some (c1, ps) =>
    if ps.Request = "" then some c1
    else
      let c2 := { c1 with handled := c1.handled ++ [ps] }
      let c3 := if c1.wdFail then { c2 with err := some wdErrMsg } else c2
      if c1.wFail then some { c3 with err := some wErrMsg }
      else some { c3 with writes := c3.writes ++ [sResp (h ps)] }

/-- `n` iterations of `connHandler`'s `for !c.cc` loop: stop early (the loop
exits and `connHandler` returns `c.err`) as soon as `c.cc` is true; note that
nothing in pps.go ever sets `cc`.  `none` propagates a panic. -/
def connHandlerLoop (h : PolicySet → PostfixResp) (connId : String) :
    Nat → Conn → Option Conn
  | 0, c => some c
  | n + 1, c =>
    if c.cc then some c
    else
      match connHandlerStep h connId c with
      | none => none
      | some c2 => connHandlerLoop h connId n c2

/-- How `RunWithListener` leaves its accept loop. -/
inductive RunExit where
  | returnedNil
  | ctxCancelled
  | sessionReturned
deriving DecidableEq, Repr

/-- Which branch of the `select` in `RunWithListener` (pps.go lines 291-297)
fires: the context is cancelled, or the spawned session's `connHandler`
returns and its error arrives on `ec`. -/
inductive SelectBranch where
  | ctxDone
  | sessionDone
deriving DecidableEq, Repr

/-- The accept loop of `RunWithListener` (pps.go lines 273-298), over the
queue of connections the listener has pending.  An `Accept` failure (e.g. the
listener was closed, or no connection ever arrives before shutdown) breaks
the loop and the function returns `nil`.  After a successful `Accept` the
code spawns `connHandler` and immediately blocks in a `select` whose both
branches `return`, so the function ends there either way.  Result: the list
of connections that were ever accepted, and how the function returned. -/
def RunWithListener (pending : List Conn) (br : SelectBranch) :
    List Conn × RunExit :=
  match pending with
  | [] => ([], .returnedNil)
  | c :: _ =>
    ([c], match br with
          | .ctxDone => .ctxCancelled
          | .sessionDone => .sessionReturned)

/-! ## Helper lemmas -/

/-- `processMsg` only updates `lines` and (possibly) `err`: every other
component of the connection state is untouched by the record assembler. -/
lemma processMsg_preserved {c c1 : Conn} {ps ps2 : PolicySet}
    (hpm : processMsg c ps = some (c1, ps2)) :
    c1.ending = c.ending ∧ c1.cc = c.cc ∧ c1.closed = c.closed ∧
    c1.handled = c.handled ∧ c1.writes = c.writes ∧
    c1.wdFail = c.wdFail ∧ c1.wFail = c.wFail := by
  unfold processMsg at hpm
  cases haux : processMsgAux c.lines ps with
  | none => rw [haux] at hpm; exact absurd hpm (by simp)
  | some t =>
    obtain ⟨rest, ps3, ex⟩ := t
    rw [haux] at hpm
    cases ex with
    | false =>
      simp only [Bool.false_eq_true, if_false, Option.some.injEq, Prod.mk.injEq] at hpm
      obtain ⟨h1, _⟩ := hpm
      subst h1
      simp
    | true =>
      cases hend : c.ending <;>
        simp only [hend, if_true, Option.some.injEq, Prod.mk.injEq] at hpm <;>
        obtain ⟨h1, _⟩ := hpm <;> subst h1 <;> simp [hend]

/-- One `connHandler` loop iteration never changes `closed` or `cc`. -/
lemma connHandlerStep_pres {h : PolicySet → PostfixResp} {id : String}
    {c c2 : Conn} (hs : connHandlerStep h id c = some c2) :
    c2.closed = c.closed ∧ c2.cc = c.cc := by
  unfold connHandlerStep at hs
  cases hpm : processMsg c { PPSConnId := id } with
  | none => rw [hpm] at hs; exact absurd hs (by simp)
  | some t =>
    obtain ⟨c1, ps⟩ := t
    rw [hpm] at hs
    dsimp only at hs
    obtain ⟨_, hcc, hcl, _⟩ := processMsg_preserved hpm
    by_cases hr : ps.Request = ""
    · rw [if_pos hr, Option.some.injEq] at hs
      subst hs
      exact ⟨hcl, hcc⟩
    · rw [if_neg hr] at hs
      cases hwd : c1.wdFail <;> cases hwf : c1.wFail <;>
        simp only [hwd, hwf, Bool.false_eq_true, if_false, if_true,
          Option.some.injEq] at hs <;> subst hs <;> simp_all

/-- Splitting `k ++ '=' :: v` at the first `=` recovers `(k, v)` when `k`
itself contains no `=`. -/
lemma splitFirst_append (k v : List Char) (hk : '=' ∉ k) :
    splitFirst (k ++ '=' :: v) = some (k, v) := by
  induction k with
  | nil => simp [splitFirst]
  | cons c cs ih =>
    have hc : c ≠ '=' := fun h => hk (h ▸ List.mem_cons_self c cs)
    have hcs : '=' ∉ cs := fun h => hk (List.mem_cons_of_mem c h)
    simp [splitFirst, hc, ih hcs]

/-- `strings.SplitN(k ++ "=" ++ v, "=", 2)` yields key `k` and value `v`
whenever `k` contains no `=` — the value keeps any `=` it contains. -/
lemma splitN2_key_val (k v : String) (hk : '=' ∉ k.data) :
    splitN2 (k ++ "=" ++ v) = (k, some v) := by
  obtain ⟨kl⟩ := k
  obtain ⟨vl⟩ := v
  have hd : (String.mk kl ++ "=" ++ String.mk vl).data = kl ++ '=' :: vl := by
    simp [String.data_append]
  unfold splitN2
  rw [hd, splitFirst_append kl vl hk]

/-- A handler that always answers `DUNNO` (like the test harness default). -/
def hDunno : PolicySet → PostfixResp := fun _ => RespDunno

/-- A freshly accepted connection whose peer closed cleanly without sending
anything: no lines, clean end-of-stream, all flags at their zero values. -/
def connEOF : Conn := { lines := [] }

/-! ## Claims -/

/-- Claim C1 (code-bug evidence).  The claim says the accept loop of
`RunWithListener` continues immediately after spawning a session.  In the
code, the loop body after a successful `Accept` ends in a `select` whose both
branches `return`, so with two connections pending only the first is ever
accepted, whichever branch fires — the loop never reaches the second
connection. -/
theorem claim_C1_second_connection_never_accepted :
    ∀ (ca cb : Conn) (br : SelectBranch),
      (RunWithListener [ca, cb] br).1 = [ca] ∧
      (RunWithListener [ca, cb] br).1 ≠ [ca, cb] := by
  intro ca cb br
  refine ⟨rfl, ?_⟩
  simp [RunWithListener]

/-- Claim C2 (code-bug evidence).  The claim says clean end-of-stream makes
the session's read loop exit into a terminal closed state.  In the code
nothing ever sets `connection.cc`, so at end-of-stream the loop state is a
fixpoint with the guard `!c.cc` still true: after any number of iterations
the session is unchanged, still looping, and not closed. -/
theorem claim_C2_eof_session_never_terminates :
    ∀ n : Nat, connHandlerLoop hDunno "cid" n connEOF = some connEOF ∧
      connEOF.cc = false ∧ connEOF.closed = false := by
  have hstep : connHandlerStep hDunno "cid" connEOF = some connEOF := by decide
  have hcc : connEOF.cc = false := rfl
  intro n
  refine ⟨?_, rfl, rfl⟩
  induction n with
  | zero => rfl
  | succ n ih =>
    simp only [connHandlerLoop, hcc, Bool.false_eq_true, if_false, hstep]
    exact ih

/-- Claim C3 (code-bug evidence).  The claim says every line without `=` is
discarded with no effect, even when it equals a recognized key.  A line that
is exactly a recognized key (here `request`) makes `processMsg` evaluate
`sl[1]` on the one-element slice returned by `SplitN` — an index-out-of-range
panic (`none`); only lines whose text is not a recognized key are silently
discarded. -/
theorem claim_C3_bare_known_key_panics :
    ∀ ps : PolicySet,
      processLine ps "request" = none ∧ processLine ps "noeq" = some ps := by
  intro ps
  exact ⟨rfl, rfl⟩

/-- A connection carrying two complete actionable request blocks, on a
transport whose response writes fail. -/
def connW : Conn := { lines := ["request=a", "", "request=b", ""], wFail := true }

/-- Claim C5 (code-bug evidence).  The claim says a failed response write is
fatal: the loop stops and the error is surfaced as the task's return value.
In the code the write error is only stored in `c.err`; the loop keeps going:
after the first block's write fails, the second block is still read and
handled (two records reach the handler), and the guard is still true, so
`connHandler` never returns the stored error. -/
theorem claim_C5_write_failure_not_fatal :
    (connHandlerLoop hDunno "cid" 2 connW).map
        (fun c => (c.err, c.handled.length, c.writes, c.cc))
      = some (some wErrMsg, 2, [], false) := by decide

/-- Decoding one `key=value` line whose key is recognized applies exactly the
mapped setter. -/
lemma processLine_known (k v : String) (ps : PolicySet)
    (f : PolicySet → String → PolicySet)
    (hk : '=' ∉ k.data) (hf : polSetFuncs k = some f) :
    processLine ps (k ++ "=" ++ v) = some (f ps v) := by
  unfold processLine
  rw [splitN2_key_val k v hk]
  dsimp only
  rw [hf]

/-- Claim C4 (code-bug evidence).  The claim says every session closes its
socket exactly once on exit.  `connHandler` in pps.go contains no `Close()`
call on the accepted connection at all: however many iterations the session
runs, for any handler and any connection state, `closed` never changes —
the socket is closed zero times, and no terminal state is ever entered. -/
theorem claim_C4_socket_never_closed :
    ∀ (h : PolicySet → PostfixResp) (id : String) (n : Nat) (c : Conn),
      ((connHandlerLoop h id n c).all fun c2 => c2.closed == c.closed) = true := by
  intro h id n
  induction n with
  | zero => intro c; simp [connHandlerLoop, Option.all]
  | succ n ih =>
    intro c
    simp only [connHandlerLoop]
    by_cases hcc : c.cc
    · simp [hcc, Option.all]
    · simp only [hcc, Bool.false_eq_true, if_false]
      cases hstep : connHandlerStep h id c with
      | none => simp [Option.all]
      | some c2 =>
        have hcl := (connHandlerStep_pres hstep).1
        simp only [← hcl]
        exact ih c2

/-- A connection carrying one complete actionable request block. -/
def connOneBlock : Conn := { lines := ["request=smtpd_access_policy", ""] }

/-- The record assembled from `connOneBlock` on connection id `cidw`. -/
def psOneBlock : PolicySet := { Request := "smtpd_access_policy", PPSConnId := "cidw" }

/-- The session state after handling `connOneBlock` with the `DUNNO` handler. -/
def connAfterBlock : Conn :=
  { lines := [], handled := [psOneBlock], writes := ["action=DUNNO\n\n"] }

/-- Claim C6 (confirmed).  For each of the ten bare named responses, whenever
a loop iteration decides a record (the handler was invoked) on a transport
whose write succeeds, the byte string written on the connection is exactly
`action=` followed by the action token and two newline characters. -/
theorem claim_C6_response_bytes :
    ∀ r ∈ tenResponses, ∀ (id : String) (c c2 : Conn),
      c.wFail = false → connHandlerStep (fun _ => r) id c = some c2 →
      c2.handled ≠ c.handled →
      c2.writes = c.writes ++ ["action=" ++ r ++ "\n\n"] := by
  intro r hr0 id c c2 hwf hs hh
  clear hr0
  unfold connHandlerStep at hs
  cases hpm : processMsg c { PPSConnId := id } with
  | none => rw [hpm] at hs; exact absurd hs (by simp)
  | some t =>
    obtain ⟨c1, ps⟩ := t
    rw [hpm] at hs
    dsimp only at hs
    obtain ⟨_, _, _, hhand, hwr, _, hwf1⟩ := processMsg_preserved hpm
    by_cases hr : ps.Request = ""
    · rw [if_pos hr, Option.some.injEq] at hs
      subst hs
      exact absurd hhand hh
    · rw [if_neg hr] at hs
      cases hwd1 : c1.wdFail <;>
        simp only [hwd1, hwf1, hwf, Bool.false_eq_true, if_false, if_true,
          Option.some.injEq] at hs <;>
        subst hs <;> simp [sResp, hwr]

/-- Witness for claim C6: the `DUNNO` handler on a concrete block writes
exactly `action=DUNNO` plus two newlines. -/
theorem claim_C6_witness :
    connAfterBlock.writes = connOneBlock.writes ++ ["action=" ++ RespDunno ++ "\n\n"] :=
  claim_C6_response_bytes RespDunno (by decide) "cidw" connOneBlock connAfterBlock
    rfl (by decide) (by decide)

/-- Claim C7 (confirmed).  A line containing `=` is split at the first
occurrence: the key is the text before the first `=` and the value is
everything after it, so a value containing further `=` characters (such as a
certificate subject) is stored intact in the record field. -/
theorem claim_C7_split_at_first_eq :
    ∀ (k v : String), '=' ∉ k.data →
      splitN2 (k ++ "=" ++ v) = (k, some v) ∧
      ∀ ps : PolicySet,
        processLine ps ("ccert_subject" ++ "=" ++ v)
          = some { ps with CCertSubject := v } := by
  intro k v hk
  refine ⟨splitN2_key_val k v hk, ?_⟩
  intro ps
  rw [processLine_known "ccert_subject" v ps _ (by decide) rfl]

/-- Witness for claim C7: a certificate-subject value containing `=` signs is
preserved intact. -/
theorem claim_C7_witness :
    splitN2 ("ccert_subject" ++ "=" ++ "CN=test,O=x")
      = ("ccert_subject", some "CN=test,O=x") ∧
    processLine {} ("ccert_subject" ++ "=" ++ "CN=test,O=x")
      = some { ({} : PolicySet) with CCertSubject := "CN=test,O=x" } :=
  ⟨(claim_C7_split_at_first_eq "ccert_subject" "CN=test,O=x" (by decide)).1,
   (claim_C7_split_at_first_eq "ccert_subject" "CN=test,O=x" (by decide)).2 {}⟩

/-- Claim C8 (confirmed).  A malformed value for any of the five numeric keys
leaves the record entirely unchanged (so the field keeps its zero value) and
raises no error: decoding returns the record, it does not fail. -/
theorem claim_C8_malformed_numeric_ignored :
    ∀ (v : String) (ps : PolicySet), parseUint10 v = none →
      processLine ps ("recipient_count" ++ "=" ++ v) = some ps ∧
      processLine ps ("size" ++ "=" ++ v) = some ps ∧
      processLine ps ("encryption_keysize" ++ "=" ++ v) = some ps ∧
      processLine ps ("client_port" ++ "=" ++ v) = some ps ∧
      processLine ps ("server_port" ++ "=" ++ v) = some ps := by
  intro v ps hv
  refine ⟨?_, ?_, ?_, ?_, ?_⟩
  · rw [processLine_known "recipient_count" v ps _ (by decide) rfl]
    rw [hv]
  · rw [processLine_known "size" v ps _ (by decide) rfl]
    rw [hv]
  · rw [processLine_known "encryption_keysize" v ps _ (by decide) rfl]
    rw [hv]
  · rw [processLine_known "client_port" v ps _ (by decide) rfl]
    rw [hv]
  · rw [processLine_known "server_port" v ps _ (by decide) rfl]
    rw [hv]

/-- Witness for claim C8 at the malformed value `abc`. -/
theorem claim_C8_witness :
    processLine {} ("recipient_count" ++ "=" ++ "abc") = some {} ∧
    processLine {} ("size" ++ "=" ++ "abc") = some {} ∧
    processLine {} ("encryption_keysize" ++ "=" ++ "abc") = some {} ∧
    processLine {} ("client_port" ++ "=" ++ "abc") = some {} ∧
    processLine {} ("server_port" ++ "=" ++ "abc") = some {} :=
  claim_C8_malformed_numeric_ignored "abc" {} (by decide)

/-- Claim C9 (confirmed).  When the assembled record of a block has an empty
request-type field, the loop iteration invokes no handler and writes no
response: the state after the iteration is exactly the state left by the
record assembler, with `handled` and `writes` unchanged and the loop guard
unchanged, so the session goes on to read the next block. -/
theorem claim_C9_empty_request_skipped :
    ∀ (h : PolicySet → PostfixResp) (id : String) (c c1 : Conn) (ps : PolicySet),
      processMsg c { PPSConnId := id } = some (c1, ps) → ps.Request = "" →
      connHandlerStep h id c = some c1 ∧ c1.handled = c.handled ∧
      c1.writes = c.writes ∧ c1.cc = c.cc := by
  intro h id c c1 ps hpm hreq
  obtain ⟨_, hcc, _, hhand, hwr, _⟩ := processMsg_preserved hpm
  refine ⟨?_, hhand, hwr, hcc⟩
  unfold connHandlerStep
  rw [hpm]
  dsimp only
  rw [if_pos hreq]

/-- A connection whose peer sends a single blank line. -/
def connBlank : Conn := { lines := [""] }

/-- Witness for claim C9: a block consisting only of a blank line produces no
handler call and no response. -/
theorem claim_C9_witness :
    connHandlerStep hDunno "cid9" connBlank = some { lines := [] } ∧
    ({ lines := [] } : Conn).handled = connBlank.handled ∧
    ({ lines := [] } : Conn).writes = connBlank.writes ∧
    ({ lines := [] } : Conn).cc = connBlank.cc :=
  claim_C9_empty_request_skipped hDunno "cid9" connBlank { lines := [] }
    { PPSConnId := "cid9" } (by decide) rfl

/-- Claim C10 (confirmed).  The address setters assign the parse result
unconditionally, so a malformed `client_address` or `server_address` value
overwrites whatever the field held — including a previously decoded valid
address — with the nil address, while (per claim C8) the numeric setters
leave a previous value in place. -/
theorem claim_C10_malformed_ip_overwrites :
    ∀ (ps : PolicySet) (v : String), ParseIP v = none →
      processLine ps ("client_address" ++ "=" ++ v)
        = some { ps with ClientAddress := none } ∧
      processLine ps ("server_address" ++ "=" ++ v)
        = some { ps with ServerAddress := none } := by
  intro ps v hv
  constructor
  · rw [processLine_known "client_address" v ps _ (by decide) rfl]
    rw [hv]
  · rw [processLine_known "server_address" v ps _ (by decide) rfl]
    rw [hv]

/-- A record that already holds valid decoded client and server addresses. -/
def psAddrs : PolicySet :=
  { ClientAddress := some (v4InV6 [127, 0, 0, 1]),
    ServerAddress := some (v4InV6 [192, 168, 0, 1]) }

/-- Witness for claim C10: a malformed address value wipes out previously
decoded valid addresses. -/
theorem claim_C10_witness :
    processLine psAddrs ("client_address" ++ "=" ++ "not-an-ip")
      = some { psAddrs with ClientAddress := none } ∧
    processLine psAddrs ("server_address" ++ "=" ++ "not-an-ip")
      = some { psAddrs with ServerAddress := none } :=
  claim_C10_malformed_ip_overwrites psAddrs "not-an-ip" (by decide)

end PPS
